import Mathlib

set_option maxRecDepth 4000

/-!
Shallow embedding of `internal/proxy/look_aside_balancer.go`, the look-aside
load balancer of the proxy tier.  Go `int64` sums that can overflow are
modelled through `int64wrap`; the `float64` score arithmetic is modelled over
`ℚ`, with `math.MaxFloat64` as the exact rational value of that constant.
Time is passed explicitly as `now` (milliseconds, as `time.Now().UnixMilli()`).
-/

/-- Wrap-around semantics of a Go `int64` arithmetic result. -/
def int64wrap (x : Int) : Int := (x + 2 ^ 63) % 2 ^ 64 - 2 ^ 63

/-- `CostMetricsExpireTime = 1000 * time.Millisecond`, in milliseconds. -/
def CostMetricsExpireTime : Int := 1000

/-- `checkQueryNodeHealthInterval = 500 * time.Millisecond`, in milliseconds. -/
def checkQueryNodeHealthInterval : Int := 500

/-- `math.MaxFloat64` as an exact rational; the numeral is `2^1024 - 2^971`
(see `maxFloat64_eq`). -/
def maxFloat64 : ℚ := ((179769313486231570814527423731704356798070567525844996598917476803157260780028538760589558632766878171540458953514382464234321326889464182768467546703537516986049910576551282076245490090389328944075868508455133942304583236903222948165808559332123348274797826204144723168738177180919299881250404026184124858368 : Int) : ℚ)

/-- `internalpb.CostAggregation` (all three fields are `int64` in the proto). -/
structure CostAggregation where
  responseTime : Int
  serviceTime : Int
  totalNQ : Int
deriving DecidableEq

/-- The mutable state of `LookAsideBalancer`: the telemetry cache
(`metricsMap`), the telemetry timestamps (`metricsUpdateTs`), the in-flight
ledger (`executingTaskTotalNQ`, absent entry = counter not yet created), and
the unreachability set (`unreachableQueryNodes`). -/
structure LookAsideBalancer where
  metricsMap : Int → Option CostAggregation
  metricsUpdateTs : Int → Option Int
  executingTaskTotalNQ : Int → Option Int
  unreachableQueryNodes : Int → Bool

/-- `isNodeCostMetricsTooOld`: absent or zero timestamp is never too old;
otherwise too old iff `now - lastUpdateTs > CostMetricsExpireTime`. -/
def isNodeCostMetricsTooOld (b : LookAsideBalancer) (now node : Int) : Bool :=
  match b.metricsUpdateTs node with
  | none => false
  | some lastUpdateTs =>
    if lastUpdateTs = 0 then false
    else decide (now - lastUpdateTs > CostMetricsExpireTime)

/-- `calculateScore`.  The Go source names the two summands of the last branch
`executeSpeed = float64(ResponseTime) - float64(ServiceTime)` and
`workload = Pow(float64(1+TotalNQ+executingNQ), 3) * float64(ServiceTime)`;
they are inlined here.  The `int64` sums `1+executingNQ` and
`1+TotalNQ+executingNQ` are computed with wrap-around before widening.
The `float64` operations themselves are modelled as exact rational
arithmetic; a statement whose truth depends on values outside the
float64-exact integer range must carry hypotheses confining it to that
range (see `calculateScore_strictMono_inflight`). -/
def calculateScore (b : LookAsideBalancer) (now node : Int)
    (cost : Option CostAggregation) (executingNQ : Int) : ℚ :=
  match cost with
  | none => ((int64wrap (1 + executingNQ) : Int) : ℚ) ^ 3
  | some c =>
    if c.responseTime = 0 ∨ c.serviceTime = 0 then
      ((int64wrap (1 + executingNQ) : Int) : ℚ) ^ 3
    else if executingNQ = 0 ∧ c.totalNQ = 0 ∧ isNodeCostMetricsTooOld b now node then
      0
    else if ((int64wrap (1 + c.totalNQ + executingNQ) : Int) : ℚ) ^ 3 * ((c.serviceTime : Int) : ℚ) < 0 then
      maxFloat64
    else
      (((c.responseTime : Int) : ℚ) - ((c.serviceTime : Int) : ℚ)) +
        ((int64wrap (1 + c.totalNQ + executingNQ) : Int) : ℚ) ^ 3 * ((c.serviceTime : Int) : ℚ)

/-- The score a candidate receives inside `SelectNode`: telemetry read from
the cache, executing NQ read from the ledger (0 when the entry is absent). -/
def scoreOf (b : LookAsideBalancer) (now node : Int) : ℚ :=
  calculateScore b now node (b.metricsMap node) ((b.executingTaskTotalNQ node).getD 0)

/-- The candidates of `availableNodes` that survive the unreachability
filter, in input order. -/
def survivors (b : LookAsideBalancer) (ns : List Int) : List Int :=
  ns.filter (fun n => !b.unreachableQueryNodes n)

/-- The loop state of `SelectNode`: the (possibly grown) in-flight ledger and
the running best candidate, initialised to `targetNode = -1`,
`targetScore = math.MaxFloat64`. -/
structure SelectLoopState where
  exec : Int → Option Int
  targetNode : Int
  targetScore : ℚ

/-- The reduction at the end of each loop iteration:
`if targetNode == -1 || score < targetScore { targetScore, targetNode = score, node }`. -/
def updateTarget (s : SelectLoopState) (f : Int → Option Int) (node : Int)
    (score : ℚ) : SelectLoopState :=
  if s.targetNode = -1 ∨ score < s.targetScore then ⟨f, node, score⟩
  else ⟨f, s.targetNode, s.targetScore⟩

/-- One iteration of the `SelectNode` loop body: skip unreachable candidates,
fetch telemetry, fetch the executing counter (inserting a fresh zero counter
when absent), score, and reduce. -/
def selectStep (b : LookAsideBalancer) (now : Int) (s : SelectLoopState)
    (node : Int) : SelectLoopState :=
  if b.unreachableQueryNodes node then s
  else
    match s.exec node with
    | some executingNQ =>
      updateTarget s s.exec node (calculateScore b now node (b.metricsMap node) executingNQ)
    | none =>
      updateTarget s (fun m => if m = node then some 0 else s.exec m) node
        (calculateScore b now node (b.metricsMap node) 0)

/-- The whole `SelectNode` loop over `availableNodes`. -/
def selectLoop (b : LookAsideBalancer) (now : Int) (availableNodes : List Int) :
    SelectLoopState :=
  availableNodes.foldl (selectStep b now) ⟨b.executingTaskTotalNQ, -1, maxFloat64⟩

/-- The error surface of the balancer (`merr.WrapErrServiceUnavailable`). -/
inductive BalancerError where
  | serviceUnavailable (msg : String)
deriving DecidableEq

/-- `SelectNode`: run the loop; if no candidate was chosen return the
`ServiceUnavailable` error, otherwise add `cost` to the chosen node's
in-flight counter (an `atomic.Int64` `Add`, which wraps at `2^63`) and
return the node.  The returned state is the balancer state after the call. -/
def SelectNode (b : LookAsideBalancer) (now : Int) (availableNodes : List Int)
    (cost : Int) : LookAsideBalancer × Except BalancerError Int :=
  if (selectLoop b now availableNodes).targetNode = -1 then
    ({ b with executingTaskTotalNQ := (selectLoop b now availableNodes).exec },
      Except.error (BalancerError.serviceUnavailable ("all available nodes are unreachable")))
  else
    ({ b with executingTaskTotalNQ := fun m =>
        if m = (selectLoop b now availableNodes).targetNode then
          ((selectLoop b now availableNodes).exec m).map (fun v => int64wrap (v + cost))
        else (selectLoop b now availableNodes).exec m },
      Except.ok (selectLoop b now availableNodes).targetNode)

/-- `CancelWorkload`: subtract `nq` from the node's counter (an
`atomic.Int64` `Sub`, which wraps at `2^63`); no-op when the node has no
ledger entry. -/
def CancelWorkload (b : LookAsideBalancer) (node nq : Int) : LookAsideBalancer :=
  match b.executingTaskTotalNQ node with
  | none => b
  | some totalNQ =>
    { b with executingTaskTotalNQ := fun m =>
        if m = node then some (int64wrap (totalNQ - nq))
        else b.executingTaskTotalNQ m }

/-- `UpdateCostMetrics`: overwrite the cached aggregation and stamp `now`. -/
def UpdateCostMetrics (b : LookAsideBalancer) (now node : Int)
    (cost : CostAggregation) : LookAsideBalancer :=
  { b with
      metricsMap := fun m => if m = node then some cost else b.metricsMap m,
      metricsUpdateTs := fun m => if m = node then some now else b.metricsUpdateTs m }

/-- `commonpb.StateCode` values relevant to the health check. -/
inductive StateCode where
  | abnormal
  | initializing
  | healthy
  | standBy
  | stopping
deriving DecidableEq

/-- Outcome of one health probe of a node, as observed by the probe closure
in `checkQueryNodeHealthLoop`: obtaining the client failed, the
`GetComponentStates` RPC failed, or the RPC replied with a state code. -/
inductive ProbeOutcome where
  | getClientFailed
  | rpcFailed
  | reply (code : StateCode)
deriving DecidableEq

/-- A probe outcome counts as healthy exactly when the reply was obtained and
carries the `Healthy` state code. -/
def probeHealthy : ProbeOutcome → Bool
  | ProbeOutcome.reply code => code = StateCode.healthy
  | _ => false

/-- The state transition performed by the probe closure in
`checkQueryNodeHealthLoop` for one node: on any failed check insert the node
into the unreachability set; on success refresh `metricsUpdateTs` to `now`
and remove the node from the set. -/
def checkNodeHealth (b : LookAsideBalancer) (now node : Int)
    (outcome : ProbeOutcome) : LookAsideBalancer :=
  match outcome with
  | ProbeOutcome.getClientFailed =>
    { b with unreachableQueryNodes := fun m =>
        if m = node then true else b.unreachableQueryNodes m }
  | ProbeOutcome.rpcFailed =>
    { b with unreachableQueryNodes := fun m =>
        if m = node then true else b.unreachableQueryNodes m }
  | ProbeOutcome.reply code =>
    if code ≠ StateCode.healthy then
      { b with unreachableQueryNodes := fun m =>
          if m = node then true else b.unreachableQueryNodes m }
    else
      { b with
          metricsUpdateTs := fun m =>
            if m = node then some now else b.metricsUpdateTs m,
          unreachableQueryNodes := fun m =>
            if m = node then false else b.unreachableQueryNodes m }

/-- The balancer state with empty maps and an empty unreachability set. -/
def emptyBalancer : LookAsideBalancer :=
  ⟨fun _ => none, fun _ => none, fun _ => none, fun _ => false⟩

theorem maxFloat64_eq : maxFloat64 = ((2 ^ 1024 - 2 ^ 971 : Int) : ℚ) := by
  norm_num [maxFloat64]

theorem scoreOf_empty_sanity : scoreOf emptyBalancer 0 5 = 1 := by decide

theorem selectNode_empty_sanity :
    (SelectNode emptyBalancer 0 [10, 20, 30] 5).2 = Except.ok 10 := rfl

/-! ## Generic facts about the embedding -/

theorem int64wrap_eq_self (x : Int) (h1 : -(2 ^ 63) ≤ x) (h2 : x < 2 ^ 63) :
    int64wrap x = x := by
  unfold int64wrap
  have hnn : 0 ≤ x + 2 ^ 63 := by omega
  have hlt : x + 2 ^ 63 < 2 ^ 64 := by omega
  rw [Int.emod_eq_of_lt hnn hlt]
  omega

/-- During the loop, the working ledger differs from the balancer's ledger at
most by freshly created zero counters of surviving processed candidates. -/
def ExecAgrees (b : LookAsideBalancer) (f : Int → Option Int) (p : List Int) : Prop :=
  ∀ m, f m = b.executingTaskTotalNQ m ∨
    (b.executingTaskTotalNQ m = none ∧ f m = some 0 ∧ m ∈ p ∧
      b.unreachableQueryNodes m = false)

/-- Every surviving processed candidate has a ledger entry holding its
pre-call counter value. -/
def ExecFilled (b : LookAsideBalancer) (f : Int → Option Int) (p : List Int) : Prop :=
  ∀ m ∈ p, b.unreachableQueryNodes m = false →
    f m = some ((b.executingTaskTotalNQ m).getD 0)

/-- Weak loop invariant, valid for arbitrary candidate lists: ledger
agreement plus the fact that a chosen target is a surviving processed
candidate. -/
def WInv (b : LookAsideBalancer) (s : SelectLoopState) (p : List Int) : Prop :=
  ExecAgrees b s.exec p ∧ ExecFilled b s.exec p ∧
    (s.targetNode = -1 ∨
      (s.targetNode ∈ p ∧ b.unreachableQueryNodes s.targetNode = false))

theorem execAgrees_getD (b : LookAsideBalancer) (f : Int → Option Int)
    (p : List Int) (hE : ExecAgrees b f p) (node : Int) :
    (f node).getD 0 = (b.executingTaskTotalNQ node).getD 0 := by
  rcases hE node with h | ⟨h1, h2, _, _⟩
  · rw [h]
  · rw [h1, h2]
    rfl

theorem execAgrees_mono (b : LookAsideBalancer) (f : Int → Option Int)
    (p q : List Int) (hpq : ∀ m, m ∈ p → m ∈ q) (hE : ExecAgrees b f p) :
    ExecAgrees b f q := by
  intro m
  rcases hE m with h | ⟨h1, h2, h3, h4⟩
  · exact Or.inl h
  · exact Or.inr ⟨h1, h2, hpq m h3, h4⟩

theorem winv_init (b : LookAsideBalancer) :
    WInv b ⟨b.executingTaskTotalNQ, -1, maxFloat64⟩ [] := by
  refine ⟨fun m => Or.inl rfl, ?_, Or.inl rfl⟩
  intro m hm
  simp at hm

theorem winv_step (b : LookAsideBalancer) (now : Int) (s : SelectLoopState)
    (p : List Int) (node : Int) (h : WInv b s p) :
    WInv b (selectStep b now s node) (p ++ [node]) := by
  obtain ⟨hA, hF, hT⟩ := h
  have hmem : ∀ m, m ∈ p → m ∈ p ++ [node] := by
    intro m hm; exact List.mem_append_left _ hm
  by_cases hu : b.unreachableQueryNodes node
  · -- unreachable: the step is a no-op
    have hstep : selectStep b now s node = s := by
      simp [selectStep, hu]
    rw [hstep]
    refine ⟨execAgrees_mono b s.exec p (p ++ [node]) hmem hA, ?_, ?_⟩
    · intro m hm hr
      rcases List.mem_append.mp hm with hm | hm
      · exact hF m hm hr
      · have hm' : m = node := by simpa using hm
        rw [hm'] at hr
        rw [hr] at hu
        exact absurd hu (by simp)
    · rcases hT with h | ⟨h1, h2⟩
      · exact Or.inl h
      · exact Or.inr ⟨hmem _ h1, h2⟩
  · -- surviving candidate
    have hu' : b.unreachableQueryNodes node = false := by
      simpa using hu
    cases hx : s.exec node with
    | some v =>
      -- counter already present: ledger untouched
      have hstep : selectStep b now s node =
          updateTarget s s.exec node (calculateScore b now node (b.metricsMap node) v) := by
        simp [selectStep, hu', hx]
      rw [hstep]
      unfold updateTarget
      have hAgrees := execAgrees_mono b s.exec p (p ++ [node]) hmem hA
      have hnodeF : s.exec node = some ((b.executingTaskTotalNQ node).getD 0) := by
        rcases hA node with h | ⟨h1, h2, _, _⟩
        · rw [hx] at h
          rw [hx, ← h]
          rfl
        · rw [hx] at h2
          rw [hx, h1]
          simpa using h2
      have hFilled : ExecFilled b s.exec (p ++ [node]) := by
        intro m hm hr
        rcases List.mem_append.mp hm with hm | hm
        · exact hF m hm hr
        · have hm' : m = node := by simpa using hm
          rw [hm']
          exact hnodeF
      split
      · exact ⟨hAgrees, hFilled, Or.inr ⟨List.mem_append_right _ (by simp), hu'⟩⟩
      · refine ⟨hAgrees, hFilled, ?_⟩
        rcases hT with h | ⟨h1, h2⟩
        · exact Or.inl h
        · exact Or.inr ⟨hmem _ h1, h2⟩
    | none =>
      -- counter absent: a fresh zero counter is inserted
      have hbnone : b.executingTaskTotalNQ node = none := by
        rcases hA node with h | ⟨_, h2, _, _⟩
        · rw [← h, hx]
        · rw [hx] at h2
          exact absurd h2 (by simp)
      have hstep : selectStep b now s node =
          updateTarget s (fun m => if m = node then some 0 else s.exec m) node
            (calculateScore b now node (b.metricsMap node) 0) := by
        simp [selectStep, hu', hx]
      rw [hstep]
      unfold updateTarget
      have hAgrees : ExecAgrees b (fun m => if m = node then some 0 else s.exec m) (p ++ [node]) := by
        intro m
        by_cases hmn : m = node
        · subst hmn
          exact Or.inr ⟨hbnone, by simp, List.mem_append_right _ (by simp), hu'⟩
        · simp only [hmn, if_false]
          rcases hA m with h | ⟨h1, h2, h3, h4⟩
          · exact Or.inl h
          · exact Or.inr ⟨h1, h2, hmem _ h3, h4⟩
      have hFilled : ExecFilled b (fun m => if m = node then some 0 else s.exec m) (p ++ [node]) := by
        intro m hm hr
        by_cases hmn : m = node
        · subst hmn
          simp [hbnone]
        · simp only [hmn, if_false]
          rcases List.mem_append.mp hm with hm | hm
          · exact hF m hm hr
          · simp at hm
            exact absurd hm hmn
      split
      · exact ⟨hAgrees, hFilled, Or.inr ⟨List.mem_append_right _ (by simp), hu'⟩⟩
      · refine ⟨hAgrees, hFilled, ?_⟩
        rcases hT with h | ⟨h1, h2⟩
        · exact Or.inl h
        · exact Or.inr ⟨hmem _ h1, h2⟩

theorem winv_foldl (b : LookAsideBalancer) (now : Int) :
    ∀ (ns p : List Int) (s : SelectLoopState), WInv b s p →
      WInv b (ns.foldl (selectStep b now) s) (p ++ ns)
  | [], p, s, h => by simpa using h
  | n :: ns, p, s, h => by
    have h2 := winv_step b now s p n h
    have h3 := winv_foldl b now ns (p ++ [n]) _ h2
    simpa using h3

theorem winv_selectLoop (b : LookAsideBalancer) (now : Int) (ns : List Int) :
    WInv b (selectLoop b now ns) ns := by
  have h := winv_foldl b now ns [] _ (winv_init b)
  simpa [selectLoop] using h

/-- Min-tracking loop invariant, valid when no candidate collides with the
`-1` sentinel: either nothing was chosen yet and no processed candidate
survived, or the running target splits the processed survivors into a strict
prefix of strictly larger scores and a suffix of scores at least as large. -/
def MinInv (b : LookAsideBalancer) (now : Int) (s : SelectLoopState)
    (p : List Int) : Prop :=
  (s.targetNode = -1 ∧ s.targetScore = maxFloat64 ∧ survivors b p = []) ∨
  (s.targetNode ≠ -1 ∧ s.targetScore = scoreOf b now s.targetNode ∧
    ∃ l1 l2, survivors b p = l1 ++ s.targetNode :: l2 ∧
      (∀ m ∈ l1, s.targetScore < scoreOf b now m) ∧
      (∀ m ∈ l2, s.targetScore ≤ scoreOf b now m))

theorem minInv_update (b : LookAsideBalancer) (now : Int) (s : SelectLoopState)
    (p : List Int) (node : Int) (f : Int → Option Int)
    (hn : node ≠ -1) (hu' : b.unreachableQueryNodes node = false)
    (h : MinInv b now s p) :
    MinInv b now (updateTarget s f node (scoreOf b now node)) (p ++ [node]) := by
  have hsurv : survivors b (p ++ [node]) = survivors b p ++ [node] := by
    simp [survivors, List.filter_append, hu']
  unfold updateTarget
  by_cases hcond : s.targetNode = -1 ∨ scoreOf b now node < s.targetScore
  · rw [if_pos hcond]
    right
    refine ⟨hn, rfl, ?_⟩
    rcases h with ⟨h1, h2, h3⟩ | ⟨h1, h2, l1, l2, hd, hl1, hl2⟩
    · refine ⟨[], [], ?_, ?_, ?_⟩
      · simp [hsurv, h3]
      · intro m hm
        simp at hm
      · intro m hm
        simp at hm
    · have hlt : scoreOf b now node < s.targetScore := by
        rcases hcond with hc | hc
        · exact absurd hc h1
        · exact hc
      refine ⟨l1 ++ s.targetNode :: l2, [], ?_, ?_, ?_⟩
      · rw [hsurv, hd]
      · intro m hm
        simp only [List.mem_append, List.mem_cons] at hm
        rcases hm with hm | hm | hm
        · exact lt_trans hlt (hl1 m hm)
        · rw [hm, ← h2]
          exact hlt
        · exact lt_of_lt_of_le hlt (hl2 m hm)
      · intro m hm
        simp at hm
  · rw [if_neg hcond]
    push_neg at hcond
    obtain ⟨hne, hge⟩ := hcond
    rcases h with ⟨h1, _, _⟩ | ⟨h1, h2, l1, l2, hd, hl1, hl2⟩
    · exact absurd h1 hne
    right
    refine ⟨h1, h2, l1, l2 ++ [node], ?_, hl1, ?_⟩
    · rw [hsurv, hd]
      simp
    · intro m hm
      rcases List.mem_append.mp hm with hm | hm
      · exact hl2 m hm
      · have hm' : m = node := by simpa using hm
        rw [hm']
        exact hge

theorem minInv_step (b : LookAsideBalancer) (now : Int) (s : SelectLoopState)
    (p : List Int) (node : Int) (hn : node ≠ -1)
    (hA : ExecAgrees b s.exec p) (h : MinInv b now s p) :
    MinInv b now (selectStep b now s node) (p ++ [node]) := by
  by_cases hu : b.unreachableQueryNodes node
  · have hstep : selectStep b now s node = s := by
      simp [selectStep, hu]
    have hsurv : survivors b (p ++ [node]) = survivors b p := by
      simp [survivors, List.filter_append, hu]
    rw [hstep]
    rcases h with ⟨h1, h2, h3⟩ | ⟨h1, h2, l1, l2, hd, hl1, hl2⟩
    · exact Or.inl ⟨h1, h2, by rw [hsurv, h3]⟩
    · exact Or.inr ⟨h1, h2, l1, l2, by rw [hsurv, hd], hl1, hl2⟩
  · have hu' : b.unreachableQueryNodes node = false := by
      simpa using hu
    cases hx : s.exec node with
    | some v =>
      have hv : (b.executingTaskTotalNQ node).getD 0 = v := by
        have hg := execAgrees_getD b s.exec p hA node
        rw [hx] at hg
        simpa using hg.symm
      have hstep : selectStep b now s node =
          updateTarget s s.exec node (scoreOf b now node) := by
        simp [selectStep, hu', hx, scoreOf, hv]
      rw [hstep]
      exact minInv_update b now s p node s.exec hn hu' h
    | none =>
      have hv : (b.executingTaskTotalNQ node).getD 0 = 0 := by
        have hg := execAgrees_getD b s.exec p hA node
        rw [hx] at hg
        simpa using hg.symm
      have hstep : selectStep b now s node =
          updateTarget s (fun m => if m = node then some 0 else s.exec m) node
            (scoreOf b now node) := by
        simp [selectStep, hu', hx, scoreOf, hv]
      rw [hstep]
      exact minInv_update b now s p node _ hn hu' h

theorem minInv_foldl (b : LookAsideBalancer) (now : Int) :
    ∀ (ns p : List Int) (s : SelectLoopState), (∀ n ∈ ns, n ≠ (-1 : Int)) →
      WInv b s p → MinInv b now s p →
      MinInv b now (ns.foldl (selectStep b now) s) (p ++ ns)
  | [], p, s, _, _, h => by simpa using h
  | n :: ns, p, s, hns, hw, h => by
    have hn : n ≠ -1 := hns n (by simp)
    have h2 := minInv_step b now s p n hn hw.1 h
    have hw2 := winv_step b now s p n hw
    have h3 := minInv_foldl b now ns (p ++ [n]) _
      (fun m hm => hns m (by simp [hm])) hw2 h2
    simpa using h3

theorem minInv_selectLoop (b : LookAsideBalancer) (now : Int) (ns : List Int)
    (h : ∀ n ∈ ns, n ≠ (-1 : Int)) :
    MinInv b now (selectLoop b now ns) ns := by
  have h2 := minInv_foldl b now ns [] _ h (winv_init b)
    (Or.inl ⟨rfl, rfl, rfl⟩)
  simpa [selectLoop] using h2

theorem survivors_eq_nil (b : LookAsideBalancer) (ns : List Int) :
    survivors b ns = [] ↔ ∀ n ∈ ns, b.unreachableQueryNodes n = true := by
  simp [survivors, List.filter_eq_nil_iff]

theorem mem_survivors (b : LookAsideBalancer) (ns : List Int) (n : Int)
    (h1 : n ∈ ns) (h2 : b.unreachableQueryNodes n = false) :
    n ∈ survivors b ns := by
  simp [survivors, List.mem_filter, h1, h2]

theorem selectNode_ok_inv (b b2 : LookAsideBalancer) (now : Int) (ns : List Int)
    (c n : Int) (h : SelectNode b now ns c = (b2, Except.ok n)) :
    (selectLoop b now ns).targetNode = n ∧ ¬n = -1 ∧
      b2 = { b with executingTaskTotalNQ := fun m =>
        if m = n then ((selectLoop b now ns).exec m).map (fun v => int64wrap (v + c))
        else (selectLoop b now ns).exec m } := by
  unfold SelectNode at h
  by_cases ht : (selectLoop b now ns).targetNode = -1
  · rw [if_pos ht] at h
    exact absurd (congrArg Prod.snd h) (by simp)
  · rw [if_neg ht, Prod.mk.injEq] at h
    obtain ⟨hfst, hsnd⟩ := h
    have h1 : (selectLoop b now ns).targetNode = n := by
      simpa using hsnd
    refine ⟨h1, ?_, ?_⟩
    · rw [← h1]
      exact ht
    · rw [← hfst, h1]

theorem calculateScore_general (b : LookAsideBalancer) (now node : Int)
    (c : CostAggregation) (k : Int)
    (h1 : ¬(c.responseTime = 0 ∨ c.serviceTime = 0))
    (h2 : ¬(k = 0 ∧ c.totalNQ = 0 ∧ isNodeCostMetricsTooOld b now node = true))
    (h3 : ¬(((int64wrap (1 + c.totalNQ + k) : Int) : ℚ) ^ 3 * ((c.serviceTime : Int) : ℚ) < 0)) :
    calculateScore b now node (some c) k =
      (((c.responseTime : Int) : ℚ) - ((c.serviceTime : Int) : ℚ)) +
        ((int64wrap (1 + c.totalNQ + k) : Int) : ℚ) ^ 3 * ((c.serviceTime : Int) : ℚ) := by
  simp only [calculateScore]
  rw [if_neg h1, if_neg h2, if_neg h3]

theorem calculateScore_guard (b : LookAsideBalancer) (now node : Int)
    (c : CostAggregation) (k : Int)
    (h1 : ¬(c.responseTime = 0 ∨ c.serviceTime = 0))
    (h2 : ¬(k = 0 ∧ c.totalNQ = 0 ∧ isNodeCostMetricsTooOld b now node = true))
    (h3 : ((int64wrap (1 + c.totalNQ + k) : Int) : ℚ) ^ 3 * ((c.serviceTime : Int) : ℚ) < 0) :
    calculateScore b now node (some c) k = maxFloat64 := by
  simp only [calculateScore]
  rw [if_neg h1, if_neg h2, if_pos h3]

/-! ## Claim theorems -/

/-- C1 (amended): for every call whose candidate list avoids the `-1`
sentinel and contains at least one reachable candidate, `SelectNode` returns
the unique surviving candidate whose score is strictly smaller than the
score of every surviving candidate before it and not greater than the score
of every surviving candidate after it (minimum score, ties broken by first
occurrence). -/
theorem SelectNode_returns_first_minimum (b : LookAsideBalancer) (now : Int)
    (ns : List Int) (c : Int)
    (h1 : (-1 : Int) ∉ ns)
    (h2 : ∃ n ∈ ns, b.unreachableQueryNodes n = false) :
    ∃ n l1 l2, (SelectNode b now ns c).2 = Except.ok n ∧
      survivors b ns = l1 ++ n :: l2 ∧
      (∀ m ∈ l1, scoreOf b now n < scoreOf b now m) ∧
      (∀ m ∈ l2, scoreOf b now n ≤ scoreOf b now m) := by
  have hne : ∀ n ∈ ns, n ≠ (-1 : Int) := fun n hn heq => h1 (heq ▸ hn)
  have hmin := minInv_selectLoop b now ns hne
  rcases hmin with ⟨ht, _, hsurv⟩ | ⟨ht, hs, l1, l2, hd, hl1, hl2⟩
  · obtain ⟨n, hn, hr⟩ := h2
    have hmem := mem_survivors b ns n hn hr
    rw [hsurv] at hmem
    simp at hmem
  · refine ⟨(selectLoop b now ns).targetNode, l1, l2, ?_, hd, ?_, ?_⟩
    · unfold SelectNode
      rw [if_neg ht]
    · intro m hm
      rw [← hs]
      exact hl1 m hm
    · intro m hm
      rw [← hs]
      exact hl2 m hm

/-- Witness for C1's amended theorem at a concrete input. -/
theorem SelectNode_returns_first_minimum_witness :
    ∃ n l1 l2, (SelectNode emptyBalancer 0 [10, 20, 30] 5).2 = Except.ok n ∧
      survivors emptyBalancer [10, 20, 30] = l1 ++ n :: l2 ∧
      (∀ m ∈ l1, scoreOf emptyBalancer 0 n < scoreOf emptyBalancer 0 m) ∧
      (∀ m ∈ l2, scoreOf emptyBalancer 0 n ≤ scoreOf emptyBalancer 0 m) :=
  SelectNode_returns_first_minimum emptyBalancer 0 [10, 20, 30] 5
    (by decide) (by decide)

/-- C1 counterexample: with candidates `[-1, 5]`, both reachable and both
scoring 1, the first-occurrence minimum is the candidate `-1`, yet the loop
treats `-1` as the "nothing chosen yet" sentinel and returns 5. -/
theorem selectNode_sentinel_breaks_first_min :
    (SelectNode emptyBalancer 0 [-1, 5] 0).2 = Except.ok 5 ∧
    survivors emptyBalancer [-1, 5] = [-1, 5] ∧
    scoreOf emptyBalancer 0 (-1) = 1 ∧ scoreOf emptyBalancer 0 5 = 1 :=
  ⟨rfl, rfl, by decide, by decide⟩

/-- C2: a successful `SelectNode` call returns a member of `availableNodes`
that is not in the unreachability set; unreachable candidates are never
returned. -/
theorem SelectNode_skips_unreachable (b b2 : LookAsideBalancer) (now : Int)
    (ns : List Int) (c n : Int)
    (h : SelectNode b now ns c = (b2, Except.ok n)) :
    n ∈ ns ∧ b.unreachableQueryNodes n = false := by
  obtain ⟨h1, h2, _⟩ := selectNode_ok_inv b b2 now ns c n h
  have hw := winv_selectLoop b now ns
  rcases hw.2.2 with ht | ⟨hmem, hr⟩
  · rw [h1] at ht
    exact absurd ht h2
  · rw [h1] at hmem hr
    exact ⟨hmem, hr⟩

/-- Witness for C2 at a concrete input. -/
theorem SelectNode_skips_unreachable_witness :
    (10 : Int) ∈ ([10, 20, 30] : List Int) ∧
    emptyBalancer.unreachableQueryNodes 10 = false :=
  SelectNode_skips_unreachable emptyBalancer
    ((SelectNode emptyBalancer 0 [10, 20, 30] 5).1) 0 [10, 20, 30] 5 10 rfl

/-- C3 (amended): for candidate lists avoiding the `-1` sentinel,
`SelectNode` fails exactly when every candidate is in the unreachability set
(in particular when the list is empty), the failure is the
`ServiceUnavailable` error with the fixed message, and on failure the whole
balancer state is unchanged. -/
theorem SelectNode_failure_iff (b : LookAsideBalancer) (now : Int)
    (ns : List Int) (c : Int) (h1 : (-1 : Int) ∉ ns) :
    ((SelectNode b now ns c).2 = Except.error
        (BalancerError.serviceUnavailable ("all available nodes are unreachable")) ↔
      ∀ n ∈ ns, b.unreachableQueryNodes n = true) ∧
    ((∀ n ∈ ns, b.unreachableQueryNodes n = true) →
      (SelectNode b now ns c).1 = b) := by
  have hne : ∀ n ∈ ns, n ≠ (-1 : Int) := fun n hn heq => h1 (heq ▸ hn)
  have hmin := minInv_selectLoop b now ns hne
  have hiff : (selectLoop b now ns).targetNode = -1 ↔ survivors b ns = [] := by
    rcases hmin with ⟨ht, _, hsurv⟩ | ⟨ht, _, l1, l2, hd, _, _⟩
    · exact ⟨fun _ => hsurv, fun _ => ht⟩
    · constructor
      · intro h
        exact absurd h ht
      · intro h
        rw [h] at hd
        exact absurd hd.symm (by simp)
  constructor
  · constructor
    · intro h
      rw [← survivors_eq_nil, ← hiff]
      by_cases ht : (selectLoop b now ns).targetNode = -1
      · exact ht
      · unfold SelectNode at h
        rw [if_neg ht] at h
        simp at h
    · intro hall
      have ht := hiff.mpr ((survivors_eq_nil b ns).mpr hall)
      unfold SelectNode
      rw [if_pos ht]
  · intro hall
    have ht := hiff.mpr ((survivors_eq_nil b ns).mpr hall)
    have hexec : (selectLoop b now ns).exec = b.executingTaskTotalNQ := by
      funext m
      rcases (winv_selectLoop b now ns).1 m with h | ⟨_, _, h3, h4⟩
      · exact h
      · rw [hall m h3] at h4
        cases h4
    unfold SelectNode
    rw [if_pos ht, hexec]

/-- Witness for C3's amended theorem at a concrete input. -/
theorem SelectNode_failure_iff_witness :
    ((SelectNode emptyBalancer 0 ([] : List Int) 7).2 = Except.error
        (BalancerError.serviceUnavailable ("all available nodes are unreachable")) ↔
      ∀ n ∈ ([] : List Int), emptyBalancer.unreachableQueryNodes n = true) ∧
    ((∀ n ∈ ([] : List Int), emptyBalancer.unreachableQueryNodes n = true) →
      (SelectNode emptyBalancer 0 ([] : List Int) 7).1 = emptyBalancer) :=
  SelectNode_failure_iff emptyBalancer 0 [] 7 (by decide)

/-- C3 counterexample: with the single reachable candidate `-1`, the call
fails with `ServiceUnavailable` although a candidate survived the
unreachability filter, and it does mutate the in-flight ledger (a zero
counter is created for `-1`). -/
theorem selectNode_sentinel_breaks_failure_iff :
    (SelectNode emptyBalancer 0 [-1] 0).2 = Except.error
      (BalancerError.serviceUnavailable ("all available nodes are unreachable")) ∧
    emptyBalancer.unreachableQueryNodes (-1) = false ∧
    (SelectNode emptyBalancer 0 [-1] 0).1.executingTaskTotalNQ (-1) = some 0 ∧
    emptyBalancer.executingTaskTotalNQ (-1) = none :=
  ⟨rfl, rfl, rfl, rfl⟩

/-- C5 (amended): when `SelectNode` succeeds with node `n` and cost `c`, and
both the pre-dispatch counter and the `int64` sum `counter + c` lie in the
`int64` range (so the `atomic.Int64` `Add` does not wrap), the in-flight
counter of `n` has been incremented by exactly `c`, and a subsequent
`CancelWorkload n c` restores the counter to its pre-dispatch value. -/
theorem SelectNode_inflight_roundtrip (b b2 : LookAsideBalancer) (now : Int)
    (ns : List Int) (c n : Int)
    (h : SelectNode b now ns c = (b2, Except.ok n))
    (hpre1 : -(2 ^ 63) ≤ (b.executingTaskTotalNQ n).getD 0)
    (hpre2 : (b.executingTaskTotalNQ n).getD 0 < 2 ^ 63)
    (hsum1 : -(2 ^ 63) ≤ (b.executingTaskTotalNQ n).getD 0 + c)
    (hsum2 : (b.executingTaskTotalNQ n).getD 0 + c < 2 ^ 63) :
    (b2.executingTaskTotalNQ n).getD 0 = (b.executingTaskTotalNQ n).getD 0 + c ∧
    ((CancelWorkload b2 n c).executingTaskTotalNQ n).getD 0 =
      (b.executingTaskTotalNQ n).getD 0 := by
  obtain ⟨h1, h2, h3⟩ := selectNode_ok_inv b b2 now ns c n h
  have hw := winv_selectLoop b now ns
  rcases hw.2.2 with ht | ⟨hmem, hr⟩
  · rw [h1] at ht
    exact absurd ht h2
  · have hfill := hw.2.1 _ hmem hr
    rw [h1] at hfill
    have hb2 : b2.executingTaskTotalNQ n =
        some ((b.executingTaskTotalNQ n).getD 0 + c) := by
      rw [h3]
      simp [hfill]
      exact int64wrap_eq_self _ hsum1 hsum2
    constructor
    · rw [hb2]
      rfl
    · unfold CancelWorkload
      rw [hb2]
      have hcancel : (b.executingTaskTotalNQ n).getD 0 + c - c =
          (b.executingTaskTotalNQ n).getD 0 := by
        omega
      simp [hcancel]
      exact int64wrap_eq_self _ hpre1 hpre2

/-- Witness for C5's amended theorem at a concrete input. -/
theorem SelectNode_inflight_roundtrip_witness :
    (((SelectNode emptyBalancer 0 [10, 20, 30] 5).1).executingTaskTotalNQ 10).getD 0 =
      (emptyBalancer.executingTaskTotalNQ 10).getD 0 + 5 ∧
    ((CancelWorkload ((SelectNode emptyBalancer 0 [10, 20, 30] 5).1) 10 5).executingTaskTotalNQ 10).getD 0 =
      (emptyBalancer.executingTaskTotalNQ 10).getD 0 :=
  SelectNode_inflight_roundtrip emptyBalancer
    ((SelectNode emptyBalancer 0 [10, 20, 30] 5).1) 0 [10, 20, 30] 5 10 rfl
    (by decide) (by decide) (by decide) (by decide)

/-- Balancer whose node 4 already carries the maximal `int64` counter. -/
def wrapLedgerBalancer : LookAsideBalancer :=
  ⟨fun _ => none, fun _ => none,
   fun m => if m = 4 then some (2 ^ 63 - 1) else none, fun _ => false⟩

/-- C5 counterexample: with the pre-dispatch counter at `2^63 - 1`, a
successful dispatch of cost 1 wraps the `atomic.Int64` counter to `-2^63`
instead of incrementing it by exactly 1. -/
theorem selectNode_inflight_add_wraps :
    (SelectNode wrapLedgerBalancer 0 [4] 1).2 = Except.ok 4 ∧
    (wrapLedgerBalancer.executingTaskTotalNQ 4).getD 0 = 2 ^ 63 - 1 ∧
    (((SelectNode wrapLedgerBalancer 0 [4] 1).1).executingTaskTotalNQ 4).getD 0 =
      -(2 ^ 63) ∧
    -(2 ^ 63) ≠ (2 ^ 63 - 1 : Int) + 1 :=
  ⟨rfl, by decide, by decide, by decide⟩

/-- C10: a successful `SelectNode` call leaves the telemetry cache, the
timestamp map and the unreachability set unchanged; the in-flight counter
value changes only for the chosen node, and for any other node the ledger
entry is untouched except that a zero counter may be created for a surviving
candidate that had none. -/
theorem SelectNode_frame (b b2 : LookAsideBalancer) (now : Int)
    (ns : List Int) (c n : Int)
    (h : SelectNode b now ns c = (b2, Except.ok n)) :
    b2.metricsMap = b.metricsMap ∧
    b2.metricsUpdateTs = b.metricsUpdateTs ∧
    b2.unreachableQueryNodes = b.unreachableQueryNodes ∧
    (∀ m, m ≠ n →
      (b2.executingTaskTotalNQ m).getD 0 = (b.executingTaskTotalNQ m).getD 0) ∧
    (∀ m, m ≠ n →
      b2.executingTaskTotalNQ m = b.executingTaskTotalNQ m ∨
        (b.executingTaskTotalNQ m = none ∧ b2.executingTaskTotalNQ m = some 0 ∧
          m ∈ ns ∧ b.unreachableQueryNodes m = false)) := by
  obtain ⟨h1, h2, h3⟩ := selectNode_ok_inv b b2 now ns c n h
  have hw := winv_selectLoop b now ns
  subst h3
  have hother : ∀ m, m ≠ n →
      (fun m => if m = n then ((selectLoop b now ns).exec m).map (fun v => int64wrap (v + c))
        else (selectLoop b now ns).exec m) m = (selectLoop b now ns).exec m := by
    intro m hm
    simp [hm]
  refine ⟨rfl, rfl, rfl, ?_, ?_⟩
  · intro m hm
    have he := hother m hm
    simp only [he]
    exact execAgrees_getD b (selectLoop b now ns).exec ns hw.1 m
  · intro m hm
    have he := hother m hm
    simp only [he]
    exact hw.1 m

/-- Witness for C10 at a concrete input: node 20 is scored but not chosen,
so its counter value stays 0. -/
theorem SelectNode_frame_witness :
    (((SelectNode emptyBalancer 0 [10, 20, 30] 5).1).executingTaskTotalNQ 20).getD 0 =
      (emptyBalancer.executingTaskTotalNQ 20).getD 0 :=
  (SelectNode_frame emptyBalancer ((SelectNode emptyBalancer 0 [10, 20, 30] 5).1)
    0 [10, 20, 30] 5 10 rfl).2.2.2.1 20 (by decide)

/-- Balancer for the idle-shortcut scenario: node 7 has nonzero response and
service times with a 2 s old timestamp; node 8 was never observed. -/
def idleBalancer : LookAsideBalancer :=
  ⟨fun m => if m = 7 then some ⟨5, 5, 0⟩ else none,
   fun m => if m = 7 then some 8000 else none,
   fun _ => none, fun _ => false⟩

/-- C4 (amended): with the expire threshold at 1 s, a node 7 whose cached
aggregation has nonzero `ResponseTime` and `ServiceTime` (here `{5, 5, 0}`),
a timestamp 2 s in the past and in-flight 0 receives score 0 through the
idle-shortcut; a never-observed node 8 receives score 1 through the
no-telemetry branch; `SelectNode` over `[8, 7]` returns 7.  (The literal
all-zero aggregation of the claim instead takes the no-telemetry branch.) -/
theorem idle_shortcut_scenario :
    isNodeCostMetricsTooOld idleBalancer 10000 7 = true ∧
    scoreOf idleBalancer 10000 7 = 0 ∧
    scoreOf idleBalancer 10000 8 = 1 ∧
    (SelectNode idleBalancer 10000 [8, 7] 0).2 = Except.ok 7 :=
  ⟨rfl, by decide, by decide, rfl⟩

/-- Balancer with the claim's literal all-zero aggregation for node 7. -/
def zeroTelemetryBalancer : LookAsideBalancer :=
  ⟨fun m => if m = 7 then some ⟨0, 0, 0⟩ else none,
   fun m => if m = 7 then some 8000 else none,
   fun _ => none, fun _ => false⟩

/-- C4 counterexample: with the claim's literal aggregation
`{ResponseTime := 0, ServiceTime := 0, TotalNQ := 0}` (2 s old, in-flight 0),
node 7 falls into the no-telemetry branch because `ResponseTime == 0`, gets
score 1 instead of 0, and `SelectNode` over `[8, 7]` returns 8, not 7. -/
theorem zero_telemetry_misses_idle_shortcut :
    zeroTelemetryBalancer.metricsMap 7 = some ⟨0, 0, 0⟩ ∧
    isNodeCostMetricsTooOld zeroTelemetryBalancer 10000 7 = true ∧
    scoreOf zeroTelemetryBalancer 10000 7 = 1 ∧
    (SelectNode zeroTelemetryBalancer 10000 [8, 7] 0).2 = Except.ok 8 :=
  ⟨rfl, rfl, by decide, rfl⟩

/-- C6 (amended): for a fixed aggregation with `ResponseTime ≠ 0`,
`ServiceTime > 0` and `TotalNQ ≥ 0`, while the telemetry is not too old (so
the idle-shortcut is off), the score is strictly increasing in the in-flight
value over `0 ≤ k1 < k2` — provided every quantity stays in the
float64-exact integer range: `1 + TotalNQ + k2 ≤ 2^17` (so its cube and the
squaring steps of `math.Pow` stay below `2^53`), the workload product at
most `2^52`, and `|ResponseTime|`, `ServiceTime` at most `2^52` (so the
widenings, the subtraction and the final addition are all integers of
magnitude at most `2^53`).  In that range every `float64` intermediate is
computed exactly, so the exact rational scores proved here coincide with the
program's `float64` scores; outside it `float64` rounding can merge
consecutive scores (e.g. `float64(2^53 + 1) = float64(2^53)`). -/
theorem calculateScore_strictMono_inflight (b : LookAsideBalancer)
    (now node : Int) (c : CostAggregation) (k1 k2 : Int)
    (hrt : c.responseTime ≠ 0) (hst : 0 < c.serviceTime) (hT : 0 ≤ c.totalNQ)
    (hk1 : 0 ≤ k1) (hlt : k1 < k2) (hub : 1 + c.totalNQ + k2 ≤ 2 ^ 17)
    (hwork : (1 + c.totalNQ + k2) ^ 3 * c.serviceTime ≤ 2 ^ 52)
    (hrtlb2 : -(2 ^ 52) ≤ c.responseTime) (hrtub2 : c.responseTime ≤ 2 ^ 52)
    (hstub2 : c.serviceTime ≤ 2 ^ 52)
    (hold : isNodeCostMetricsTooOld b now node = false) :
    calculateScore b now node (some c) k1 < calculateScore b now node (some c) k2 := by
  have hw1 : int64wrap (1 + c.totalNQ + k1) = 1 + c.totalNQ + k1 :=
    int64wrap_eq_self _ (by omega) (by omega)
  have hw2 : int64wrap (1 + c.totalNQ + k2) = 1 + c.totalNQ + k2 :=
    int64wrap_eq_self _ (by omega) (by omega)
  have hstq : (0 : ℚ) < ((c.serviceTime : Int) : ℚ) := by
    exact_mod_cast hst
  have hc1 : (0 : ℚ) ≤ ((1 + c.totalNQ + k1 : Int) : ℚ) := by
    have hz : (0 : Int) ≤ 1 + c.totalNQ + k1 := by omega
    exact_mod_cast hz
  have hc2 : (0 : ℚ) ≤ ((1 + c.totalNQ + k2 : Int) : ℚ) := by
    have hz : (0 : Int) ≤ 1 + c.totalNQ + k2 := by omega
    exact_mod_cast hz
  have hclt : ((1 + c.totalNQ + k1 : Int) : ℚ) < ((1 + c.totalNQ + k2 : Int) : ℚ) := by
    have hz : (1 + c.totalNQ + k1 : Int) < 1 + c.totalNQ + k2 := by omega
    exact_mod_cast hz
  have hne : ¬(c.responseTime = 0 ∨ c.serviceTime = 0) := by
    push_neg
    exact ⟨hrt, ne_of_gt hst⟩
  have hidle1 : ¬(k1 = 0 ∧ c.totalNQ = 0 ∧ isNodeCostMetricsTooOld b now node = true) := by
    rintro ⟨-, -, hcontra⟩
    rw [hold] at hcontra
    cases hcontra
  have hidle2 : ¬(k2 = 0 ∧ c.totalNQ = 0 ∧ isNodeCostMetricsTooOld b now node = true) := by
    rintro ⟨-, -, hcontra⟩
    rw [hold] at hcontra
    cases hcontra
  have hguard1 : ¬(((int64wrap (1 + c.totalNQ + k1) : Int) : ℚ) ^ 3 *
      ((c.serviceTime : Int) : ℚ) < 0) := by
    rw [hw1]
    exact not_lt.mpr (mul_nonneg (pow_nonneg hc1 3) (le_of_lt hstq))
  have hguard2 : ¬(((int64wrap (1 + c.totalNQ + k2) : Int) : ℚ) ^ 3 *
      ((c.serviceTime : Int) : ℚ) < 0) := by
    rw [hw2]
    exact not_lt.mpr (mul_nonneg (pow_nonneg hc2 3) (le_of_lt hstq))
  rw [calculateScore_general b now node c k1 hne hidle1 hguard1,
    calculateScore_general b now node c k2 hne hidle2 hguard2, hw1, hw2]
  have hpow : ((1 + c.totalNQ + k1 : Int) : ℚ) ^ 3 < ((1 + c.totalNQ + k2 : Int) : ℚ) ^ 3 :=
    pow_lt_pow_left₀ hclt hc1 (by norm_num)
  exact add_lt_add_left (mul_lt_mul_of_pos_right hpow hstq) _

/-- Witness for C6's amended theorem at a concrete input. -/
theorem calculateScore_strictMono_inflight_witness :
    calculateScore emptyBalancer 0 5 (some ⟨50, 10, 0⟩) 0 <
      calculateScore emptyBalancer 0 5 (some ⟨50, 10, 0⟩) 1 :=
  calculateScore_strictMono_inflight emptyBalancer 0 5 ⟨50, 10, 0⟩ 0 1
    (by decide) (by decide) (by decide) (by decide) (by decide) (by decide)
    (by decide) (by decide) (by decide) (by decide) rfl

/-- Aggregation with a negative service time (an `int64` field can be
negative), falling into the general branch for every in-flight value. -/
def negServiceCost : CostAggregation := ⟨1, -1, 0⟩

/-- C6 counterexample: for the aggregation `{1, -1, 0}` the general branch
applies (nonzero response and service times, idle-shortcut off), yet the
score is `math.MaxFloat64` at both in-flight 0 and 1 because the negative
workload trips the overflow guard, so it is not strictly increasing. -/
theorem score_not_monotone_negative_service_time :
    negServiceCost.responseTime ≠ 0 ∧ negServiceCost.serviceTime ≠ 0 ∧
    isNodeCostMetricsTooOld emptyBalancer 0 5 = false ∧
    calculateScore emptyBalancer 0 5 (some negServiceCost) 0 = maxFloat64 ∧
    calculateScore emptyBalancer 0 5 (some negServiceCost) 1 = maxFloat64 ∧
    ¬(calculateScore emptyBalancer 0 5 (some negServiceCost) 0 <
        calculateScore emptyBalancer 0 5 (some negServiceCost) 1) := by
  have e0 : calculateScore emptyBalancer 0 5 (some negServiceCost) 0 = maxFloat64 :=
    calculateScore_guard emptyBalancer 0 5 negServiceCost 0 (by decide) (by decide)
      (by norm_num [negServiceCost, int64wrap])
  have e1 : calculateScore emptyBalancer 0 5 (some negServiceCost) 1 = maxFloat64 :=
    calculateScore_guard emptyBalancer 0 5 negServiceCost 1 (by decide) (by decide)
      (by norm_num [negServiceCost, int64wrap])
  refine ⟨by decide, by decide, rfl, e0, e1, ?_⟩
  rw [e0, e1]
  exact lt_irrefl maxFloat64

/-- C7 (amended): in the general scoring branch a negative workload term
yields the `math.MaxFloat64` sentinel (the spec's "+∞"); and, provided no
candidate equals the `-1` sentinel, a node `a` reporting `TotalNQ = 2^62`
and `ServiceTime = 2^20` (with any nonzero `int64` response time and a
nonnegative, in-range in-flight value) is never selected by `SelectNode`
when some reachable candidate scores below `2^80`: its own workload term is
at least `(2^62)^3 · 2^20`, far above any ordinary score.  Without the
sentinel proviso the claim fails: see `sentinel_selects_huge_node`. -/
theorem overflow_guard_and_huge_workload (b : LookAsideBalancer) (now : Int)
    (ns : List Int) (cost a m node3 k3 : Int) (c c3 : CostAggregation)
    (hg1 : ¬(c3.responseTime = 0 ∨ c3.serviceTime = 0))
    (hg2 : ¬(k3 = 0 ∧ c3.totalNQ = 0 ∧ isNodeCostMetricsTooOld b now node3 = true))
    (hg3 : ((int64wrap (1 + c3.totalNQ + k3) : Int) : ℚ) ^ 3 * ((c3.serviceTime : Int) : ℚ) < 0)
    (hca : b.metricsMap a = some c)
    (hT : c.totalNQ = 2 ^ 62) (hS : c.serviceTime = 2 ^ 20)
    (hrt : c.responseTime ≠ 0) (hrtlb : -(2 ^ 63) ≤ c.responseTime)
    (hk0 : 0 ≤ (b.executingTaskTotalNQ a).getD 0)
    (hkub : (b.executingTaskTotalNQ a).getD 0 ≤ 2 ^ 62 - 2)
    (hm : m ∈ ns) (hmr : b.unreachableQueryNodes m = false)
    (hsane : scoreOf b now m < 2 ^ 80)
    (hns : (-1 : Int) ∉ ns) :
    calculateScore b now node3 (some c3) k3 = maxFloat64 ∧
    (SelectNode b now ns cost).2 ≠ Except.ok a := by
  refine ⟨calculateScore_guard b now node3 c3 k3 hg1 hg2 hg3, ?_⟩
  intro heq
  have hTn : c.totalNQ = 4611686018427387904 := by
    rw [hT]
    norm_num
  have hkubn : (b.executingTaskTotalNQ a).getD 0 ≤ 4611686018427387902 := by
    have h := hkub
    rw [show ((2 : Int) ^ 62 - 2) = 4611686018427387902 by norm_num] at h
    exact h
  have hwrap : int64wrap (1 + c.totalNQ + (b.executingTaskTotalNQ a).getD 0) =
      1 + c.totalNQ + (b.executingTaskTotalNQ a).getD 0 := by
    apply int64wrap_eq_self
    · rw [show (-((2 : Int) ^ 63)) = -9223372036854775808 by norm_num]
      omega
    · rw [show ((2 : Int) ^ 63) = 9223372036854775808 by norm_num]
      omega
  have h1 : ¬(c.responseTime = 0 ∨ c.serviceTime = 0) := by
    push_neg
    refine ⟨hrt, ?_⟩
    rw [hS]
    norm_num
  have h2 : ¬((b.executingTaskTotalNQ a).getD 0 = 0 ∧ c.totalNQ = 0 ∧
      isNodeCostMetricsTooOld b now a = true) := by
    rintro ⟨-, hz, -⟩
    rw [hTn] at hz
    norm_num at hz
  have hcastnn : (0 : ℚ) ≤ ((1 + c.totalNQ + (b.executingTaskTotalNQ a).getD 0 : Int) : ℚ) := by
    have hz : (0 : Int) ≤ 1 + c.totalNQ + (b.executingTaskTotalNQ a).getD 0 := by omega
    exact_mod_cast hz
  have hstq : (0 : ℚ) < ((c.serviceTime : Int) : ℚ) := by
    rw [hS]
    push_cast
    norm_num
  have h3 : ¬(((int64wrap (1 + c.totalNQ + (b.executingTaskTotalNQ a).getD 0) : Int) : ℚ) ^ 3 *
      ((c.serviceTime : Int) : ℚ) < 0) := by
    rw [hwrap]
    exact not_lt.mpr (mul_nonneg (pow_nonneg hcastnn 3) (le_of_lt hstq))
  have hscore : scoreOf b now a =
      (((c.responseTime : Int) : ℚ) - ((c.serviceTime : Int) : ℚ)) +
        ((1 + c.totalNQ + (b.executingTaskTotalNQ a).getD 0 : Int) : ℚ) ^ 3 *
          ((c.serviceTime : Int) : ℚ) := by
    unfold scoreOf
    rw [hca, calculateScore_general b now a c _ h1 h2 h3, hwrap]
  have hst_eq : ((c.serviceTime : Int) : ℚ) = (1048576 : ℚ) := by
    rw [hS]
    push_cast
    norm_num
  have hrt_lb : -((2 : ℚ) ^ 63) ≤ ((c.responseTime : Int) : ℚ) := by
    exact_mod_cast hrtlb
  have hbase : (4611686018427387905 : ℚ) ≤
      ((1 + c.totalNQ + (b.executingTaskTotalNQ a).getD 0 : Int) : ℚ) := by
    have hz : (4611686018427387905 : Int) ≤
        1 + c.totalNQ + (b.executingTaskTotalNQ a).getD 0 := by omega
    exact_mod_cast hz
  have hpow : (4611686018427387905 : ℚ) ^ 3 ≤
      ((1 + c.totalNQ + (b.executingTaskTotalNQ a).getD 0 : Int) : ℚ) ^ 3 :=
    pow_le_pow_left₀ (by norm_num) hbase 3
  have hlarge : (2 : ℚ) ^ 80 < scoreOf b now a := by
    have hwle : (4611686018427387905 : ℚ) ^ 3 * 1048576 ≤
        ((1 + c.totalNQ + (b.executingTaskTotalNQ a).getD 0 : Int) : ℚ) ^ 3 * 1048576 :=
      mul_le_mul_of_nonneg_right hpow (by norm_num)
    have hnum : (2 : ℚ) ^ 80 <
        -((2 : ℚ) ^ 63) - 1048576 + (4611686018427387905 : ℚ) ^ 3 * 1048576 := by
      norm_num
    rw [hscore, hst_eq]
    nlinarith [hwle, hrt_lb, hnum]
  have hne : ∀ n ∈ ns, n ≠ (-1 : Int) := fun n hn he => hns (he ▸ hn)
  have hmin := minInv_selectLoop b now ns hne
  unfold SelectNode at heq
  by_cases ht : (selectLoop b now ns).targetNode = -1
  · rw [if_pos ht] at heq
    simp at heq
  · rw [if_neg ht] at heq
    have hta : (selectLoop b now ns).targetNode = a := by
      simpa using heq
    rcases hmin with ⟨ht', _, _⟩ | ⟨_, hs, l1, l2, hd, hl1, hl2⟩
    · exact ht ht'
    · rw [hta] at hs hd
      have hmsurv : m ∈ survivors b ns := mem_survivors b ns m hm hmr
      rw [hd] at hmsurv
      have hle : scoreOf b now a ≤ scoreOf b now m := by
        rcases List.mem_append.mp hmsurv with hm1 | hm2
        · have hx := hl1 m hm1
          rw [hs] at hx
          exact le_of_lt hx
        · rcases List.mem_cons.mp hm2 with he | hm2
          · rw [he]
          · have hx := hl2 m hm2
            rw [hs] at hx
            exact hx
      exact absurd (lt_of_le_of_lt hle hsane) (not_lt.mpr (le_of_lt hlarge))

/-- Balancer for the C7 witness: node 1 reports the huge aggregation, node 2
has no telemetry yet (score 1, an ordinary sane score). -/
def hugeBalancer : LookAsideBalancer :=
  ⟨fun m => if m = 1 then some ⟨1, 2 ^ 20, 2 ^ 62⟩ else none,
   fun _ => none, fun _ => none, fun _ => false⟩

/-- Witness for C7 at a concrete input: the aggregation `{1, 1, 2^63 - 1}`
makes `1 + TotalNQ + 0` wrap to `-2^63`, so its workload term is negative
and the score is the sentinel; and `SelectNode` over `[1, 2]` does not pick
the huge node 1. -/
theorem overflow_guard_and_huge_workload_witness :
    calculateScore hugeBalancer 0 3 (some ⟨1, 1, 2 ^ 63 - 1⟩) 0 = maxFloat64 ∧
    (SelectNode hugeBalancer 0 [1, 2] 5).2 ≠ Except.ok 1 :=
  overflow_guard_and_huge_workload hugeBalancer 0 [1, 2] 5 1 2 3 0
    ⟨1, 2 ^ 20, 2 ^ 62⟩ ⟨1, 1, 2 ^ 63 - 1⟩
    (by decide) (by decide)
    (by norm_num [int64wrap])
    rfl rfl rfl (by decide) (by decide) (by decide) (by decide)
    (by decide) rfl (by decide) (by decide)


/-- C7 counterexample: with candidates `[-1, 1]`, the reachable candidate
`-1` has the sane score 1, yet after scoring it the loop's `targetNode` is
still the `-1` sentinel, so the huge node 1 (score above `2^80`) is selected
over it: the claim as frozen is false of the program. -/
theorem sentinel_selects_huge_node :
    (SelectNode hugeBalancer 0 [-1, 1] 5).2 = Except.ok 1 ∧
    hugeBalancer.unreachableQueryNodes (-1) = false ∧
    scoreOf hugeBalancer 0 (-1) = 1 ∧
    (2 : ℚ) ^ 80 < scoreOf hugeBalancer 0 1 := by
  refine ⟨rfl, rfl, by decide, ?_⟩
  have h1 : ¬((⟨1, 2 ^ 20, 2 ^ 62⟩ : CostAggregation).responseTime = 0 ∨
      (⟨1, 2 ^ 20, 2 ^ 62⟩ : CostAggregation).serviceTime = 0) := by
    decide
  have h2 : ¬((0 : Int) = 0 ∧ (⟨1, 2 ^ 20, 2 ^ 62⟩ : CostAggregation).totalNQ = 0 ∧
      isNodeCostMetricsTooOld hugeBalancer 0 1 = true) := by
    decide
  have hw : int64wrap (1 + (2 : Int) ^ 62 + 0) = 1 + 2 ^ 62 + 0 :=
    int64wrap_eq_self _ (by norm_num) (by norm_num)
  have h3 : ¬(((int64wrap (1 + (⟨1, 2 ^ 20, 2 ^ 62⟩ : CostAggregation).totalNQ + 0) : Int) : ℚ) ^ 3 *
      (((⟨1, 2 ^ 20, 2 ^ 62⟩ : CostAggregation).serviceTime : Int) : ℚ) < 0) := by
    show ¬(((int64wrap (1 + (2 : Int) ^ 62 + 0) : Int) : ℚ) ^ 3 * (((2 : Int) ^ 20 : Int) : ℚ) < 0)
    rw [hw]
    push_cast
    exact not_lt.mpr (by positivity)
  have hgen := calculateScore_general hugeBalancer 0 1 ⟨1, 2 ^ 20, 2 ^ 62⟩ 0 h1 h2 h3
  have hsc : scoreOf hugeBalancer 0 1 =
      calculateScore hugeBalancer 0 1 (some ⟨1, 2 ^ 20, 2 ^ 62⟩) 0 := rfl
  rw [hsc, hgen]
  show (2 : ℚ) ^ 80 < (((1 : Int) : ℚ) - (((2 : Int) ^ 20 : Int) : ℚ)) +
    ((int64wrap (1 + (2 : Int) ^ 62 + 0) : Int) : ℚ) ^ 3 * (((2 : Int) ^ 20 : Int) : ℚ)
  rw [hw]
  push_cast
  norm_num

/-- C8: the telemetry-too-old predicate (with its 1000 ms default) holds
exactly when a nonzero timestamp is recorded and `now - lastUpdateMs`
exceeds `CostMetricsExpireTime`; an absent or zero timestamp is never too
old, so a never-observed node is not treated as stale. -/
theorem isNodeCostMetricsTooOld_iff (b : LookAsideBalancer) (now node : Int) :
    CostMetricsExpireTime = 1000 ∧
    (isNodeCostMetricsTooOld b now node = true ↔
      ∃ ts, b.metricsUpdateTs node = some ts ∧ ts ≠ 0 ∧
        now - ts > CostMetricsExpireTime) := by
  refine ⟨rfl, ?_⟩
  unfold isNodeCostMetricsTooOld
  cases h : b.metricsUpdateTs node with
  | none => simp
  | some ts =>
    by_cases h0 : ts = 0
    · subst h0
      simp
    · simp [h0]

/-- C9: the probe transition inserts the node into the unreachability set
exactly when the probe is unhealthy (client failure, RPC failure, or a
non-`Healthy` state code); on a healthy probe it refreshes the node's
timestamp to `now` and removes the node from the set; the telemetry cache
and the in-flight ledger are untouched either way. -/
theorem checkNodeHealth_transition (b : LookAsideBalancer) (now node : Int)
    (outcome : ProbeOutcome) :
    (checkNodeHealth b now node outcome).unreachableQueryNodes node =
      !probeHealthy outcome ∧
    (checkNodeHealth b now node outcome).metricsUpdateTs node =
      (if probeHealthy outcome then some now else b.metricsUpdateTs node) ∧
    (checkNodeHealth b now node outcome).metricsMap = b.metricsMap ∧
    (checkNodeHealth b now node outcome).executingTaskTotalNQ =
      b.executingTaskTotalNQ := by
  cases outcome with
  | getClientFailed =>
    refine ⟨?_, ?_, ?_, ?_⟩ <;> simp [checkNodeHealth, probeHealthy]
  | rpcFailed =>
    refine ⟨?_, ?_, ?_, ?_⟩ <;> simp [checkNodeHealth, probeHealthy]
  | reply code =>
    cases code <;> (refine ⟨?_, ?_, ?_, ?_⟩ <;> simp [checkNodeHealth, probeHealthy])
